import Mathlib

/-!
Shallow embedding of `src/vulnerabilities,Hadeel_Ghalieah.py`, a FastAPI
service exposing `GET /fixed-versions`.  The service queries the OSV API once
per requested ecosystem, extracts every `fixed` version string from the nested
response, deduplicates, sorts ascending and returns the result, mapping an
empty merge to HTTP 404 and upstream failures to an unhandled server error.

Modelling choices, each noted at its definition:
* The OSV JSON response is modelled by typed structures whose list-valued keys
  are `Option`s, so that an absent key (`dict.get(k, [])` in the source) is
  distinguishable from a present empty list.
* The outbound HTTP POST is an oracle parameter `post`: it may fail at the
  transport level (`Except Unit`) or return a status code and a parsed body.
* `asyncio.gather` over per-ecosystem coroutines is modelled by a fail-fast
  list traversal (`gatherResults`): the aggregate fails whenever any
  sub-query fails, and results keep the order of the `ecosystems` list,
  exactly as `asyncio.gather` orders its result list.
* Python's `list(set(xs))` iterates the set in an order the runtime does not
  specify; it is modelled canonically by `List.dedup`, which has the same
  element set and no duplicates.  Every observable claim factors through the
  final `sorted(...)` call, so the representative order is irrelevant.
* Python's `sorted(xs, reverse=False)` on strings is ascending lexicographic
  order on code points, the same order as Lean's `String` order; it is
  modelled by `List.insertionSort strLe`, a correct comparison sort over the
  explicitly pinned core string order.
* `datetime.now().isoformat()` is modelled by a `now : String` parameter.
-/

namespace Vulnerabilities

/-- One OSV event object; the code only reads its optional `fixed` key. -/
structure Event where
  fixed : Option String
deriving DecidableEq, Repr

/-- One OSV range object (`range_` in the source); optional `events` key. -/
structure OSVRange where
  events : Option (List Event)
deriving DecidableEq, Repr

/-- One OSV affected-package object; optional `ranges` key. -/
structure Affected where
  ranges : Option (List OSVRange)
deriving DecidableEq, Repr

/-- One OSV vulnerability object; optional `affected` key. -/
structure Vuln where
  affected : Option (List Affected)
deriving DecidableEq, Repr

/-- The parsed OSV query response; optional top-level `vulns` key. -/
structure OSVData where
  vulns : Option (List Vuln)
deriving DecidableEq, Repr

/-- The `package` dict of the outbound payload: `{"name": ..., "ecosystem": ...}`. -/
structure PackageRef where
  name : String
  ecosystem : String
deriving DecidableEq, Repr

/-- The pydantic `OSVQuery` model: `commit`, `version` and `pageToken` default
to `None` and are never populated by the code. -/
structure OSVQuery where
  commit : Option String := none
  version : Option String := none
  package : PackageRef
  pageToken : Option String := none
deriving DecidableEq, Repr

/-- `OSV_API_URL = "https://api.osv.dev/v1/query"`. -/
def OSV_API_URL : String := "https://api.osv.dev/v1/query"

/-- The outbound `client.post` call, as an oracle: given the URL and the JSON
payload it either fails at the transport level or yields an HTTP status code
together with the parsed JSON body. -/
abbrev PostOracle := String → OSVQuery → Except Unit (Nat × OSVData)

/-- How an outbound OSV query can fail: a transport error raised by
`client.post`, or a non-success HTTP status raised by `raise_for_status`. -/
inductive ApiFailure where
  | transport
  | httpStatus (code : Nat)
deriving DecidableEq, Repr

/-- `query_osv_api`: posts the payload to `OSV_API_URL`, raises for a
non-success status (httpx raises unless `200 ≤ status < 300`), else returns
the parsed body. -/
def query_osv_api (post : PostOracle) (query_payload : OSVQuery) :
    Except ApiFailure OSVData :=
  match post OSV_API_URL query_payload with
  | .error _ => .error .transport
  | .ok (status, body) =>
    if 200 ≤ status ∧ status < 300 then .ok body
    else .error (.httpStatus status)

/-- The contribution of one event: the Python code yields `event.get('fixed')`
only when it is truthy, so a missing key (`none`) and an empty string both
contribute nothing. -/
def fixedOfEvent (event : Event) : List String :=
  match event.fixed with
  | some s => if s = "" then [] else [s]
  | none => []

/-- `extract_fixed_versions`: the four nested loops over
`vulns → affected → ranges → events`, each level read with `dict.get(k, [])`
(modelled by `Option.getD _ []`), collecting every truthy `fixed` value.  The
source writes this as a generator; per the spec it is eagerly collected into
a list here, preserving order of traversal. -/
def extract_fixed_versions (data : OSVData) : List String :=
  (data.vulns.getD []).flatMap fun vuln =>
    (vuln.affected.getD []).flatMap fun affected =>
      (affected.ranges.getD []).flatMap fun range_ =>
        (range_.events.getD []).flatMap fun event => fixedOfEvent event

/-- `fetch_fixed_versions_for_ecosystem`: builds the per-ecosystem payload
(only `package` populated), queries the API, extracts the fixed versions. -/
def fetch_fixed_versions_for_ecosystem (post : PostOracle)
    (package_name : String) (ecosystem : String) :
    Except ApiFailure (List String) :=
  match query_osv_api post { package := ⟨package_name, ecosystem⟩ } with
  | .error e => .error e
  | .ok data => .ok (extract_fixed_versions data)

/-- The `asyncio.gather` fan-in over the per-ecosystem tasks: all sub-results
in task order, or a failure as soon as any sub-query fails (no
partial-success mode, matching gather's default behaviour). -/
def gatherResults (post : PostOracle) (package_name : String) :
    List String → Except ApiFailure (List (List String))
  | [] => .ok []
  | ecosystem :: rest =>
    match fetch_fixed_versions_for_ecosystem post package_name ecosystem with
    | .error e => .error e
    | .ok versions =>
      match gatherResults post package_name rest with
      | .error e => .error e
      | .ok restResults => .ok (versions :: restResults)

/-- `fetch_fixed_versions`: gathers all per-ecosystem results, concatenates
them in task order (the `async for` loop), and deduplicates
(`list(set(fixed_versions))`, modelled canonically by `List.dedup`). -/
def fetch_fixed_versions (post : PostOracle) (package_name : String)
    (ecosystems : List String) : Except ApiFailure (List String) :=
  match gatherResults post package_name ecosystems with
  | .error e => .error e
  | .ok results => .ok results.flatten.dedup

/-- The `FixedVersionsResponse` pydantic response model. -/
structure FixedVersionsResponse where
  name : String
  versions : List String
  timestamp : String
deriving DecidableEq, Repr

/-- The observable outcome of the handler body: an HTTP 200 with the response
model, the explicit `HTTPException(404, ...)`, or an uncaught upstream
failure surfacing as a generic server error. -/
inductive HandlerResult where
  | success (response : FixedVersionsResponse)
  | notFound (detail : String)
  | serverError (failure : ApiFailure)
deriving DecidableEq, Repr

/-- Python compares strings lexicographically by code point; this is exactly
Lean core's `String` order (`<` on the underlying character lists), pinned
explicitly by instance so that statements and kernel evaluation use the
structural list-based definition rather than an iterator-based one. -/
def strLt (a b : String) : Prop := @LT.lt String String.instLT a b

/-- The reflexive closure used by Python's ascending sort: `a ≤ b` iff
`¬ b < a` in the lexicographic code-point order. -/
def strLe (a b : String) : Prop := ¬ strLt b a

instance : DecidableRel strLt := fun a b => String.decLt a b

instance : DecidableRel strLe := fun a b => @instDecidableNot _ (String.decLt b a)

instance : IsTotal String strLe :=
  ⟨fun a b => by
    by_cases h : strLt b a
    · exact Or.inr fun h2 => String.lt_irrefl b (String.lt_trans h h2)
    · exact Or.inl h⟩

instance : IsTrans String strLe :=
  ⟨fun a b c hab hbc hca => by
    by_cases h : strLt a b
    · exact hbc (String.lt_trans hca h)
    · exact hbc (String.lt_antisymm h hab ▸ hca)⟩

instance : IsAntisymm String strLe :=
  ⟨fun _ _ hab hba => String.lt_antisymm hba hab⟩

/-- `sorted(xs, reverse=False)` on strings: ascending lexicographic sort. -/
def sortedAscending (versions : List String) : List String :=
  versions.insertionSort strLe

/-- The body of the `get_fixed_versions` handler, after FastAPI validation:
fetch, map an empty merge to 404 with detail `"No fixed versions found"`,
otherwise sort ascending and build the response envelope. -/
def get_fixed_versions (post : PostOracle) (name : String)
    (ecosystems : List String) (now : String) : HandlerResult :=
  match fetch_fixed_versions post name ecosystems with
  | .error e => .serverError e
  | .ok fixed_versions =>
    if fixed_versions = [] then .notFound "No fixed versions found"
    else .success ⟨name, sortedAscending fixed_versions, now⟩

/-- What the endpoint returns: FastAPI's parameter validation error (`name`
missing or shorter than `min_length=1`), or the handler outcome. -/
inductive EndpointResult where
  | validationError
  | handled (result : HandlerResult)
deriving DecidableEq, Repr

/-- The declared default for the `ecosystems` query parameter. -/
def defaultEcosystems : List String := ["Ubuntu"]

/-- The full request boundary: FastAPI rejects a missing `name` or one
violating `min_length=1` before the handler body (and hence before any
outbound call) runs; an omitted `ecosystems` parameter defaults to
`defaultEcosystems`. -/
def handle_request (post : PostOracle) (name : Option String)
    (ecosystems : Option (List String)) (now : String) : EndpointResult :=
  match name with
  | none => .validationError
  | some n =>
    if n.length < 1 then .validationError
    else .handled (get_fixed_versions post n (ecosystems.getD defaultEcosystems) now)

/-- Replace an absent `events` key by a present empty list. -/
def fillRange (range_ : OSVRange) : OSVRange := ⟨some (range_.events.getD [])⟩

/-- Replace absent `ranges`/`events` keys by present empty lists. -/
def fillAffected (affected : Affected) : Affected :=
  ⟨some ((affected.ranges.getD []).map fillRange)⟩

/-- Replace absent `affected`/`ranges`/`events` keys by present empty lists. -/
def fillVuln (vuln : Vuln) : Vuln :=
  ⟨some ((vuln.affected.getD []).map fillAffected)⟩

/-- Replace every absent key of the response by a present empty list. -/
def fillData (data : OSVData) : OSVData :=
  ⟨some ((data.vulns.getD []).map fillVuln)⟩

/-- C3: membership in the extraction result is exactly: some event reached by
exhaustively traversing the four nesting levels `vulns → affected → ranges →
events` carries that value in its `fixed` field and the value is non-empty;
an event whose `fixed` key is absent or empty satisfies no branch of the
right-hand side and so contributes nothing, and the extraction is a total
function, never an error. -/
theorem mem_extract_fixed_versions_iff (data : OSVData) (s : String) :
    s ∈ extract_fixed_versions data ↔
      ∃ vuln ∈ data.vulns.getD [], ∃ affected ∈ vuln.affected.getD [],
        ∃ range_ ∈ affected.ranges.getD [], ∃ event ∈ range_.events.getD [],
          event.fixed = some s ∧ s ≠ "" := by
  simp only [extract_fixed_versions, List.mem_flatMap]
  refine exists_congr fun vuln => and_congr_right fun _ => ?_
  refine exists_congr fun affected => and_congr_right fun _ => ?_
  refine exists_congr fun range_ => and_congr_right fun _ => ?_
  refine exists_congr fun event => and_congr_right fun _ => ?_
  cases h : event.fixed with
  | none => simp [fixedOfEvent, h]
  | some v =>
    simp only [fixedOfEvent, h, Option.some.injEq]
    by_cases hv : v = "" <;> rcases eq_or_ne v s with rfl | hvs <;>
      simp_all [eq_comm]

/-- C10: the extraction is total on responses with missing keys, and each
absent key behaves exactly as a present empty list: filling every absent
`vulns`/`affected`/`ranges`/`events` key with `[]` leaves the result
unchanged, and the all-absent response extracts to nothing.  (Totality — no
exception on an absent key — is the fact that `extract_fixed_versions` is a
function on all of `OSVData`, with absent keys modelled as `none`.) -/
theorem extract_total_on_missing_keys (data : OSVData) :
    extract_fixed_versions (fillData data) = extract_fixed_versions data ∧
      extract_fixed_versions ⟨none⟩ = [] := by
  constructor
  · simp only [extract_fixed_versions, fillData, Option.getD_some, List.flatMap_map]
    refine List.flatMap_congr fun vuln _ => ?_
    simp only [fillVuln, Option.getD_some, List.flatMap_map]
    refine List.flatMap_congr fun affected _ => ?_
    simp only [fillAffected, Option.getD_some, List.flatMap_map]
    refine List.flatMap_congr fun range_ _ => ?_
    simp [fillRange]
  · simp [extract_fixed_versions]

/-! Helper lemmas shared by several claims. -/

/-- A non-empty string passes the `min_length=1` validation. -/
theorem length_ge_one_of_ne_empty {s : String} (h : s ≠ "") : ¬ s.length < 1 := by
  rcases s with ⟨data⟩
  cases data with
  | nil => exact absurd rfl h
  | cons c cs => simp [String.length]

/-- The ascending sort is a permutation of its input. -/
theorem sortedAscending_perm (versions : List String) :
    (sortedAscending versions).Perm versions :=
  List.perm_insertionSort strLe versions

/-- The ascending sort is sorted with respect to `≤`. -/
theorem sortedAscending_sorted (versions : List String) :
    (sortedAscending versions).Sorted strLe :=
  List.sorted_insertionSort strLe versions

/-- Sorting identifies permutation-equal inputs. -/
theorem sortedAscending_eq_of_perm {vs₁ vs₂ : List String} (h : vs₁.Perm vs₂) :
    sortedAscending vs₁ = sortedAscending vs₂ :=
  List.eq_of_perm_of_sorted
    ((sortedAscending_perm vs₁).trans (h.trans (sortedAscending_perm vs₂).symm))
    (sortedAscending_sorted vs₁) (sortedAscending_sorted vs₂)

/-- Sorting a non-empty list yields a non-empty list. -/
theorem sortedAscending_ne_nil {vs : List String} (h : vs ≠ []) :
    sortedAscending vs ≠ [] := by
  intro hnil
  have hp := sortedAscending_perm vs
  rw [hnil] at hp
  exact h hp.symm.eq_nil

/-- A successful fetch is deduplicated. -/
theorem fetch_fixed_versions_ok_nodup (post : PostOracle) (package_name : String)
    (ecosystems : List String) {vs : List String}
    (h : fetch_fixed_versions post package_name ecosystems = .ok vs) : vs.Nodup := by
  unfold fetch_fixed_versions at h
  cases hg : gatherResults post package_name ecosystems with
  | error e => rw [hg] at h; cases h
  | ok results =>
    rw [hg] at h
    cases h
    exact List.nodup_dedup _

/-- Inversion of the handler body on the success branch: the fetch succeeded
with a non-empty merged list, and the response is its sorted form. -/
theorem get_fixed_versions_success_inv {post : PostOracle} {name : String}
    {ecosystems : List String} {now : String} {response : FixedVersionsResponse}
    (h : get_fixed_versions post name ecosystems now = .success response) :
    ∃ vs, fetch_fixed_versions post name ecosystems = .ok vs ∧ vs ≠ [] ∧
      response = ⟨name, sortedAscending vs, now⟩ := by
  unfold get_fixed_versions at h
  split at h
  next e hf => cases h
  next vs hf =>
    split at h
    next hvs => cases h
    next hvs =>
      cases h
      exact ⟨vs, hf, hvs, rfl⟩

/-- Inversion of the request boundary on the handled branch. -/
theorem handle_request_handled_inv {post : PostOracle} {name : String}
    {ecosystems : Option (List String)} {now : String} {result : HandlerResult}
    (h : handle_request post (some name) ecosystems now = .handled result) :
    get_fixed_versions post name (ecosystems.getD defaultEcosystems) now = result := by
  simp only [handle_request] at h
  split at h
  next hlen => cases h
  next hlen =>
    cases h
    rfl

/-- C1: whenever the endpoint answers a request with a success response —
in particular for every valid request whose merged fixed-version set is
non-empty — the `versions` list of that response has no duplicate entries
and is sorted ascending in the lexicographic string order. -/
theorem success_versions_nodup_sorted (post : PostOracle) (name : String)
    (ecosystems : Option (List String)) (now : String)
    (response : FixedVersionsResponse)
    (h : handle_request post (some name) ecosystems now =
      .handled (.success response)) :
    response.versions.Nodup ∧ response.versions.Sorted strLe := by
  obtain ⟨vs, hf, -, rfl⟩ :=
    get_fixed_versions_success_inv (handle_request_handled_inv h)
  constructor
  · exact (sortedAscending_perm vs).nodup_iff.mpr
      (fetch_fixed_versions_ok_nodup post name _ hf)
  · exact sortedAscending_sorted vs

/-- C2: when every outbound query succeeds but the merged fixed-version set
is empty, the handler answers with the 404 branch carrying the detail
message `"No fixed versions found"`; and in general the handler never
produces a success response whose `versions` list is empty. -/
theorem empty_merge_yields_notFound (post : PostOracle) (name : String)
    (ecosystems : List String) (now : String)
    (h : fetch_fixed_versions post name ecosystems = .ok []) :
    get_fixed_versions post name ecosystems now =
        .notFound "No fixed versions found" ∧
      ∀ (post2 : PostOracle) (name2 : String) (eco2 : List String)
        (now2 : String) (response : FixedVersionsResponse),
        get_fixed_versions post2 name2 eco2 now2 = .success response →
          response.versions ≠ [] := by
  constructor
  · simp [get_fixed_versions, h]
  · intro post2 name2 eco2 now2 response hs
    obtain ⟨vs, -, hvs, rfl⟩ := get_fixed_versions_success_inv hs
    exact sortedAscending_ne_nil hvs

/-- If any requested ecosystem's sub-query fails, the gather step fails. -/
theorem gatherResults_error_of_mem (post : PostOracle) (package_name : String)
    {ecosystems : List String} {eco : String} (hmem : eco ∈ ecosystems)
    (hfail : ∃ e, fetch_fixed_versions_for_ecosystem post package_name eco = .error e) :
    ∃ e, gatherResults post package_name ecosystems = .error e := by
  induction ecosystems with
  | nil => cases hmem
  | cons head rest ih =>
    rcases List.mem_cons.mp hmem with rfl | hrest
    · obtain ⟨e, he⟩ := hfail
      exact ⟨e, by simp [gatherResults, he]⟩
    · cases hh : fetch_fixed_versions_for_ecosystem post package_name head with
      | error e => exact ⟨e, by simp [gatherResults, hh]⟩
      | ok v =>
        obtain ⟨e, he⟩ := ih hrest
        exact ⟨e, by simp [gatherResults, hh, he]⟩

/-- Permuting the ecosystems list permutes the concatenation of the gathered
per-ecosystem results (and preserves success). -/
theorem gatherResults_perm (post : PostOracle) (package_name : String)
    {l₁ l₂ : List String} (hperm : l₁.Perm l₂) {rs₁ : List (List String)}
    (h₁ : gatherResults post package_name l₁ = .ok rs₁) :
    ∃ rs₂, gatherResults post package_name l₂ = .ok rs₂ ∧
      rs₁.flatten.Perm rs₂.flatten := by
  induction hperm generalizing rs₁ with
  | nil =>
    simp only [gatherResults, Except.ok.injEq] at h₁
    exact ⟨[], rfl, by rw [← h₁]⟩
  | cons x hp ih =>
    rename_i t₁ t₂
    simp only [gatherResults] at h₁
    cases hx : fetch_fixed_versions_for_ecosystem post package_name x with
    | error e => rw [hx] at h₁; cases h₁
    | ok v =>
      rw [hx] at h₁
      cases hg : gatherResults post package_name t₁ with
      | error e => rw [hg] at h₁; cases h₁
      | ok rs =>
        rw [hg] at h₁
        cases h₁
        obtain ⟨rs₂, hg₂, hp₂⟩ := ih hg
        exact ⟨v :: rs₂, by simp [gatherResults, hx, hg₂],
          by simpa using hp₂.append_left v⟩
  | swap x y l =>
    simp only [gatherResults] at h₁
    cases hy : fetch_fixed_versions_for_ecosystem post package_name y with
    | error e => rw [hy] at h₁; cases h₁
    | ok vy =>
      rw [hy] at h₁
      cases hx : fetch_fixed_versions_for_ecosystem post package_name x with
      | error e => rw [hx] at h₁; cases h₁
      | ok vx =>
        rw [hx] at h₁
        cases hg : gatherResults post package_name l with
        | error e => rw [hg] at h₁; cases h₁
        | ok rs =>
          rw [hg] at h₁
          cases h₁
          refine ⟨vx :: vy :: rs, by simp [gatherResults, hx, hy, hg], ?_⟩
          simp only [List.flatten_cons, ← List.append_assoc]
          exact (List.perm_append_comm).append_right rs.flatten
  | trans hp₁₂ hp₂₃ ih₁₂ ih₂₃ =>
    obtain ⟨rsm, hgm, hpm⟩ := ih₁₂ h₁
    obtain ⟨rs₂, hg₂, hp₂⟩ := ih₂₃ hgm
    exact ⟨rs₂, hg₂, hpm.trans hp₂⟩

/-- Permuting the ecosystems list permutes a successful merged fetch. -/
theorem fetch_fixed_versions_perm (post : PostOracle) (package_name : String)
    {l₁ l₂ : List String} (hperm : l₁.Perm l₂) {vs₁ : List String}
    (h₁ : fetch_fixed_versions post package_name l₁ = .ok vs₁) :
    ∃ vs₂, fetch_fixed_versions post package_name l₂ = .ok vs₂ ∧
      vs₁.Perm vs₂ := by
  unfold fetch_fixed_versions at h₁ ⊢
  cases hg : gatherResults post package_name l₁ with
  | error e => rw [hg] at h₁; cases h₁
  | ok rs₁ =>
    rw [hg] at h₁
    cases h₁
    obtain ⟨rs₂, hg₂, hp₂⟩ := gatherResults_perm post package_name hperm hg
    exact ⟨rs₂.flatten.dedup, by rw [hg₂], hp₂.dedup⟩

/-- C4: if the outbound OSV query for any single requested ecosystem fails
(transport error or non-2xx status, both surfaced as an
`ApiFailure` by `query_osv_api`), then for a valid package name the whole
request fails with no partial result: the error is not caught anywhere in
the aggregation and reaches the request boundary as a generic server
error. -/
theorem single_ecosystem_failure_fails_request (post : PostOracle)
    (name : String) (ecosystems : List String) (now eco : String)
    (hname : name ≠ "") (hmem : eco ∈ ecosystems)
    (hfail : ∃ e, fetch_fixed_versions_for_ecosystem post name eco = .error e) :
    ∃ failure, handle_request post (some name) (some ecosystems) now =
      .handled (.serverError failure) := by
  obtain ⟨e, hg⟩ := gatherResults_error_of_mem post name hmem hfail
  refine ⟨e, ?_⟩
  simp [handle_request, length_ge_one_of_ne_empty hname, get_fixed_versions,
    fetch_fixed_versions, hg]

/-- C6: a request that omits the `ecosystems` query parameter is processed
with the ecosystem list exactly `["Ubuntu"]`: for a valid name its outcome
is the handler body run on `["Ubuntu"]`. -/
theorem default_ecosystems_ubuntu (post : PostOracle) (name now : String)
    (hname : name ≠ "") :
    handle_request post (some name) none now =
      .handled (get_fixed_versions post name ["Ubuntu"] now) := by
  simp [handle_request, length_ge_one_of_ne_empty hname, defaultEcosystems]

/-- C7: the success response is invariant under permutation of the requested
ecosystems list: results are merged by set union (dedup of the concatenation)
and then sorted, so the order of the sub-queries is irrelevant to the
returned `versions` list. -/
theorem versions_invariant_under_ecosystem_perm (post : PostOracle)
    (name : String) {l₁ l₂ : List String} (hperm : l₁.Perm l₂)
    (now : String) (r₁ : FixedVersionsResponse)
    (h₁ : handle_request post (some name) (some l₁) now =
      .handled (.success r₁)) :
    ∃ r₂, handle_request post (some name) (some l₂) now =
        .handled (.success r₂) ∧ r₂.versions = r₁.versions := by
  have hlen : ¬ name.length < 1 := by
    intro hlt
    simp [handle_request, hlt] at h₁
  obtain ⟨vs₁, hf₁, hvs₁, rfl⟩ :=
    get_fixed_versions_success_inv (handle_request_handled_inv h₁)
  obtain ⟨vs₂, hf₂, hp⟩ := fetch_fixed_versions_perm post name hperm hf₁
  have hvs₂ : vs₂ ≠ [] := fun hnil => hvs₁ (hnil ▸ hp).eq_nil
  refine ⟨⟨name, sortedAscending vs₂, now⟩, ?_, ?_⟩
  · simp [handle_request, hlen, get_fixed_versions, hf₂, hvs₂]
  · exact (sortedAscending_eq_of_perm hp).symm

/-- C8: a request whose `name` parameter is missing or empty is rejected by
FastAPI's validation with a validation error, and no outbound call is made:
the outcome is independent of the outbound HTTP oracle. -/
theorem invalid_name_rejected_before_outbound (post post2 : PostOracle)
    (name : Option String) (ecosystems : Option (List String)) (now : String)
    (h : name = none ∨ name = some "") :
    handle_request post name ecosystems now = .validationError ∧
      handle_request post name ecosystems now =
        handle_request post2 name ecosystems now := by
  have hlen : ("" : String).length < 1 := by decide
  rcases h with rfl | rfl
  · exact ⟨rfl, rfl⟩
  · constructor <;> simp [handle_request, hlen]

/-! Concrete oracles used to instantiate the claims on explicit inputs. -/

/-- An OSV response whose single vulnerability/affected/range carries exactly
the given fixed versions, one per event. -/
def dataWith (versions : List String) : OSVData :=
  ⟨some [⟨some [⟨some [⟨some (versions.map fun s => ⟨some s⟩)⟩]⟩]⟩]⟩

/-- An oracle serving ecosystem `"EcoA"` the fixed versions `{"2.1", "1.0"}`
and ecosystem `"EcoB"` the fixed versions `{"1.0", "3.0"}`. -/
def examplePost : PostOracle := fun _ query =>
  if query.package.ecosystem = "EcoA" then .ok (200, dataWith ["2.1", "1.0"])
  else if query.package.ecosystem = "EcoB" then .ok (200, dataWith ["1.0", "3.0"])
  else .ok (200, ⟨none⟩)

/-- An oracle that always succeeds with a response carrying no `vulns`. -/
def emptyPost : PostOracle := fun _ _ => .ok (200, ⟨none⟩)

/-- An oracle that always fails at the transport level. -/
def failingPost : PostOracle := fun _ _ => .error ()

/-- C5: querying a package over the two ecosystems `"EcoA"` and `"EcoB"`,
whose records carry the fixed versions `{"2.1", "1.0"}` and `{"1.0", "3.0"}`
respectively, returns the success response whose `versions` list is exactly
`["1.0", "2.1", "3.0"]`: the duplicate `"1.0"` is removed and the merge is
sorted ascending. -/
theorem two_ecosystem_example :
    handle_request examplePost (some "requests") (some ["EcoA", "EcoB"])
        "2024-01-01T00:00:00" =
      .handled (.success
        ⟨"requests", ["1.0", "2.1", "3.0"], "2024-01-01T00:00:00"⟩) := by
  decide

/-- Witness for C1 at the concrete two-ecosystem oracle. -/
theorem success_versions_nodup_sorted_witness :
    (FixedVersionsResponse.mk "requests" ["1.0", "2.1", "3.0"] "t").versions.Nodup ∧
      (FixedVersionsResponse.mk "requests" ["1.0", "2.1", "3.0"] "t").versions.Sorted
        strLe :=
  success_versions_nodup_sorted examplePost "requests" (some ["EcoA", "EcoB"]) "t"
    ⟨"requests", ["1.0", "2.1", "3.0"], "t"⟩ (by decide)

/-- Witness for C2 at an oracle whose responses carry no vulnerabilities. -/
theorem empty_merge_yields_notFound_witness :
    get_fixed_versions emptyPost "requests" ["Ubuntu"] "t" =
        .notFound "No fixed versions found" ∧
      ∀ (post2 : PostOracle) (name2 : String) (eco2 : List String)
        (now2 : String) (response : FixedVersionsResponse),
        get_fixed_versions post2 name2 eco2 now2 = .success response →
          response.versions ≠ [] :=
  empty_merge_yields_notFound emptyPost "requests" ["Ubuntu"] "t" rfl

/-- Witness for C4 at an oracle that fails at the transport level. -/
theorem single_ecosystem_failure_fails_request_witness :
    ∃ failure, handle_request failingPost (some "requests") (some ["Ubuntu"]) "t" =
      .handled (.serverError failure) :=
  single_ecosystem_failure_fails_request failingPost "requests" ["Ubuntu"] "t"
    "Ubuntu" (by decide) (by decide) ⟨.transport, rfl⟩

/-- Witness for C6 at a concrete oracle and name. -/
theorem default_ecosystems_ubuntu_witness :
    handle_request emptyPost (some "requests") none "t" =
      .handled (get_fixed_versions emptyPost "requests" ["Ubuntu"] "t") :=
  default_ecosystems_ubuntu emptyPost "requests" "t" (by decide)

/-- Witness for C7: swapping the two ecosystems of the concrete example
leaves the `versions` list unchanged. -/
theorem versions_invariant_under_ecosystem_perm_witness :
    ∃ r₂, handle_request examplePost (some "requests") (some ["EcoB", "EcoA"]) "t" =
        .handled (.success r₂) ∧
      r₂.versions =
        (FixedVersionsResponse.mk "requests" ["1.0", "2.1", "3.0"] "t").versions :=
  versions_invariant_under_ecosystem_perm examplePost "requests"
    (List.Perm.swap "EcoB" "EcoA" []) "t"
    ⟨"requests", ["1.0", "2.1", "3.0"], "t"⟩ (by decide)

/-- Witness for C8 at the empty name. -/
theorem invalid_name_rejected_before_outbound_witness :
    handle_request emptyPost (some "") (some ["Ubuntu"]) "t" = .validationError ∧
      handle_request emptyPost (some "") (some ["Ubuntu"]) "t" =
        handle_request failingPost (some "") (some ["Ubuntu"]) "t" :=
  invalid_name_rejected_before_outbound emptyPost failingPost (some "")
    (some ["Ubuntu"]) "t" (Or.inr rfl)

end Vulnerabilities
